import Mathlib

/-!
Verification of the polarizable auxiliary-particle ("shell") relaxation core of
`src/gromacs/mdlib/shellfc.cpp`, embedded shallowly over exact rationals.

Conventions of the embedding:
* `real` values are modelled as `ℚ` (the claims under scrutiny concern control
  flow and exact algebraic relations, not floating-point rounding).
* particle arrays (`rvec x[]`, `rvec v[]`, masses, particle types) are modelled
  as total functions from `ℤ` (the C index type) to the value type;
* fallible code paths (`gmx_fatal`) are modelled with `Except String`;
* external collaborators that live outside this repository (libm `sqrt`, the
  force evaluator `do_force`, `gmx_within_tol` / `gmx_numzero` from
  `gromacs/math/functions.h`) are passed in as parameters or modelled from the
  spec, as noted on each definition.
-/

/-- A 3-vector of rationals, modelling `rvec` (`real[3]`). -/
structure Vec3 where
  x : ℚ
  y : ℚ
  z : ℚ
deriving DecidableEq

instance : Add Vec3 := ⟨fun a b => ⟨a.x + b.x, a.y + b.y, a.z + b.z⟩⟩
instance : Sub Vec3 := ⟨fun a b => ⟨a.x - b.x, a.y - b.y, a.z - b.z⟩⟩
instance : SMul ℚ Vec3 := ⟨fun c a => ⟨c * a.x, c * a.y, c * a.z⟩⟩

/-- The zero vector, as produced by `clear_rvec`. -/
def vzero : Vec3 := ⟨0, 0, 0⟩

/-- Inner product of two 3-vectors (`iprod` from `gromacs/math/vec.h`). -/
def iprod (a b : Vec3) : ℚ := a.x * b.x + a.y * b.y + a.z * b.z

/-- Squared norm of a 3-vector (`norm2` from `gromacs/math/vec.h`). -/
def norm2 (a : Vec3) : ℚ := iprod a a

/-- A shell record, modelling `t_shell`: the fields initialised at
`init_shell_flexcon` (lines 331-345) plus the solver-state fields written by
`shell_pos_sd` (`step`, `xold`, `fold`). -/
structure Shell where
  shell : ℤ
  nnucl : ℕ
  nucl1 : ℤ
  nucl2 : ℤ
  nucl3 : ℤ
  k : ℚ
  k_1 : ℚ
  k11 : ℚ
  k22 : ℚ
  k33 : ℚ
  step : Vec3
  xold : Vec3
  fold : Vec3
deriving DecidableEq

/-- A freshly initialised shell record, per `init_shell_flexcon` lines 331-345
(the `step`/`xold`/`fold` fields are zeroed by `snew`). -/
def initShell : Shell :=
  { shell := -1, nnucl := 0, nucl1 := -1, nucl2 := -1, nucl3 := -1,
    k := 0, k_1 := 0, k11 := 0, k22 := 0, k33 := 0,
    step := vzero, xold := vzero, fold := vzero }

/-! ## Setup check of `init_shell_flexcon` (lines 292-311) -/

/-- Outcome of the early-return / fatal-check prefix of `init_shell_flexcon`. -/
inductive SetupOutcome
  | returnSilently
  | fatalNstcalcenergy
  | returnNoShells
  | buildShellTable
deriving DecidableEq

/-- The control flow of `init_shell_flexcon` lines 292-311: silently return
when there are neither shells nor flexible constraints; otherwise abort fatally
when `nstcalcenergy != 1`; then return (after the check) when there are no
shells; otherwise continue to build the global shell table. -/
def init_shell_flexcon_setup_check (nshell nflexcon : ℕ) (nstcalcenergy : ℤ) :
    SetupOutcome :=
  if nshell = 0 ∧ nflexcon = 0 then .returnSilently
  else if nstcalcenergy ≠ 1 then .fatalNstcalcenergy
  else if nshell = 0 then .returnNoShells
  else .buildShellTable

/-! ## Adaptive step-size update of `shell_pos_sd` (lines 697-783) -/

/-- `step_scale_min` (line 700). -/
def step_scale_min : ℚ := 4/5

/-- `step_scale_increment` (line 701). -/
def step_scale_increment : ℚ := 1/5

/-- `step_scale_max` (line 702). -/
def step_scale_max : ℚ := 6/5

/-- `step_scale_multiple` (line 703). -/
def step_scale_multiple : ℚ := (step_scale_max - step_scale_min) / step_scale_increment

/-- Modelled from the spec: `gmx_numzero` lives in `gromacs/math/functions.h`,
outside the provided sources. The spec describes it as testing that the
position component "failed to change"; GROMACS implements it as a comparison
of the magnitude against a tiny fixed tolerance, modelled here as an explicit
small positive rational constant. -/
def gmx_numzero_tol : ℚ := 1 / 2 ^ 103

/-- Modelled from the spec: `|a|` is at most the tiny tolerance, i.e. the value
is numerically indistinguishable from zero. -/
def gmx_numzero (a : ℚ) : Bool := |a| ≤ gmx_numzero_tol

/-- One component of the per-component adaptive step update of `shell_pos_sd`
for iterations after the first (`count != 1`), lines 729-759: the secant
estimate `-dx/df` is blended into the running step when `df` is nonzero;
when `df` is binary-equal to zero the step is left alone if the position also
did not change, and is multiplied by `step_scale_max` otherwise. -/
def shell_step_component (stp xcurd xoldd fd foldd : ℚ) : ℚ :=
  let dx := xcurd - xoldd
  let df := fd - foldd
  if df ≠ 0 then
    let k_est := -dx / df
    step_scale_min * stp +
      step_scale_increment * min (step_scale_multiple * stp) (max k_est 0)
  else
    if gmx_numzero dx then stp
    else stp * step_scale_max

/-- The new step vector for one shell in `shell_pos_sd`: on the very first
iteration (`count == 1`, lines 716-726) every component is set to `1/k`;
afterwards each component is updated by the secant rule (lines 727-765). -/
def shell_new_step (count : ℕ) (sh : Shell) (xcur f : Vec3) : Vec3 :=
  if count = 1 then ⟨sh.k_1, sh.k_1, sh.k_1⟩
  else
    ⟨shell_step_component sh.step.x xcur.x sh.xold.x f.x sh.fold.x,
     shell_step_component sh.step.y xcur.y sh.xold.y f.y sh.fold.y,
     shell_step_component sh.step.z xcur.z sh.xold.z f.z sh.fold.z⟩

/-- `do_1pos3` (lines 668-684): `xnew = xold + f * step`, componentwise. -/
def do_1pos3 (xold f stp : Vec3) : Vec3 :=
  ⟨xold.x + f.x * stp.x, xold.y + f.y * stp.y, xold.z + f.z * stp.z⟩

/-- `shell_pos_sd` (lines 697-783): for each shell in order, update the
per-shell adaptive step, record the current position and force into
`xold`/`fold` of the shell record (lines 766-767), and write the trial
position `do_1pos3(xnew[shell], xcur[shell], f[shell], step)` (line 769).
Returns the updated shell records and the updated trial-position array. -/
def shell_pos_sd : (ℤ → Vec3) → (ℤ → Vec3) → (ℤ → Vec3) → ℕ → List Shell →
    List Shell × (ℤ → Vec3)
  | _, xnew, _, _, [] => ([], xnew)
  | xcur, xnew, f, count, sh :: rest =>
      let stp := shell_new_step count sh (xcur sh.shell) (f sh.shell)
      let sh2 := { sh with step := stp, xold := xcur sh.shell, fold := f sh.shell }
      let xnew2 := Function.update xnew sh.shell (do_1pos3 (xcur sh.shell) (f sh.shell) stp)
      let r := shell_pos_sd xcur xnew2 f count rest
      (sh2 :: r.1, r.2)

/-- `decrease_step_size` (lines 785-793): uniformly shrink every shell's step
vector by the factor 0.8. -/
def decrease_step_size (s : List Shell) : List Shell :=
  s.map (fun sh => { sh with step := (4/5 : ℚ) • sh.step })

/-! ## `rms_force` (lines 813-841), single-rank (`PAR(cr)` false) -/

/-- `rms_force` on a single rank: sum `sf_dir` plus the squared force norms
over the shells into `buf[0]`, let `ntot = ns + ndir`, and return
`sqrt(buf[0]/ntot)` guarded by `ntot != 0` (line 840 returns 0 for an empty
workload). The libm square root is an external collaborator and is passed in
as `sqrtFn`. -/
def rms_force (sqrtFn : ℚ → ℚ) (f : ℤ → Vec3) (s : List Shell) (ndir : ℕ)
    (sf_dir : ℚ) : ℚ :=
  let buf0 := s.foldl (fun acc sh => acc + norm2 (f sh.shell)) sf_dir
  let ntot := s.length + ndir
  if ntot = 0 then 0 else sqrtFn (buf0 / ntot)

/-! ## Control skeleton of `relax_shell_flexcon` (lines 1432-1646)

The external force evaluator (`do_force` followed by `rms_force`, §6 of the
spec) is abstracted as a function `evalRms : ℕ → ℚ` giving the RMS force
obtained from the k-th force evaluation of the step (k = 0 is the evaluation
at line 1437 before the loop; k = count is the evaluation at line 1545 in the
loop iteration with that `count` value). The skeleton records exactly the
control-flow facts of the source: the convergence flag, the loop counter, the
number of force evaluations, and the increment applied to the run-wide
`numForceEvaluations` counter (line 1625). -/

/-- State after the minimization loop of `relax_shell_flexcon`. -/
structure RelaxOut where
  count : ℕ
  converged : Bool
  dfMin : ℚ
  iters : ℕ
deriving DecidableEq

/-- The `for (count = 1; !bConverged && count < number_steps; count++)` loop
(lines 1510-1624): each iteration evaluates forces at the trial positions
(line 1545), recomputes the RMS force (line 1573), sets
`bConverged = df[Try] < ftol` (line 1598), and accepts the trial
(`Min = Try`) exactly when `df[Try] < df[Min]` (line 1600), otherwise
shrinking the step sizes. `fuel` bounds the recursion; it is always called
with enough fuel for the loop condition to be the only exit. -/
def relaxGo (ftol : ℚ) (numberSteps : ℕ) (evalRms : ℕ → ℚ) :
    ℕ → ℕ → ℚ → Bool → ℕ → RelaxOut
  | 0, count, dfMin, conv, iters => ⟨count, conv, dfMin, iters⟩
  | fuel + 1, count, dfMin, conv, iters =>
      if conv = false ∧ count < numberSteps then
        let dfTry := evalRms count
        let conv2 := decide (dfTry < ftol)
        let dfMin2 := if dfTry < dfMin then dfTry else dfMin
        relaxGo ftol numberSteps evalRms fuel (count + 1) dfMin2 conv2 (iters + 1)
      else ⟨count, conv, dfMin, iters⟩

/-- Result summary of one invocation of `relax_shell_flexcon`. -/
structure RelaxResult where
  count : ℕ
  converged : Bool
  dfMin : ℚ
  loopIters : ℕ
  forceEvaluations : ℕ
  counterIncrement : ℕ
  warned : Bool
  initialReportCount : ℕ
deriving DecidableEq

/-- The minimization branch of `relax_shell_flexcon` (SCF / energy
minimization, lines 1448-1646) on a single rank: evaluate forces once
(line 1437, `evalRms 0`), set `bConverged = df[Min] < ftol` (line 1508), run
the loop, then add the final `count` to the run-wide force-evaluation counter
(line 1625) and warn iff not converged (lines 1630-1642); the function then
returns normally (the step continues) in either case. `initialReportCount` is
the `count` value (0, line 1326) passed to the `print_epot` report before the
loop (line 1491). -/
def relax_shell_flexcon (ftol : ℚ) (numberSteps : ℕ) (evalRms : ℕ → ℚ) :
    RelaxResult :=
  let dfMin := evalRms 0
  let bConverged := decide (dfMin < ftol)
  let o := relaxGo ftol numberSteps evalRms numberSteps 1 dfMin bConverged 0
  { count := o.count, converged := o.converged, dfMin := o.dfMin,
    loopIters := o.iters, forceEvaluations := 1 + o.iters,
    counterIncrement := o.count, warned := !o.converged,
    initialReportCount := 0 }

/-! ## `predict_shells` (lines 107-217) -/

/-- `predict_shells` with a non-NULL `mass` array (the only remaining caller,
see the comment at lines 100-106): `fudge = 1.0` (line 126); in the `bInit`
mode the shell position is cleared and predicted from positions with
`dt_1 = 1` (lines 128-136, 146-149); otherwise the prediction reads the
nuclear velocities with `dt_1 = fudge*dt` (lines 137-141). For 1, 2 or 3
attached nuclei the contribution is the (mass-weighted) combination of the
`ptr` entries times `dt_1` (lines 151-207); any other `nnucl` is a fatal
error (line 209). In `bInit` mode `ptr` aliases the evolving position array,
exactly as in the source. -/
def predict_shells (x v : ℤ → Vec3) (dt : ℚ) (s : List Shell) (mass : ℤ → ℚ)
    (bInit : Bool) : Except String (ℤ → Vec3) :=
  let fudge : ℚ := 1
  let dt_1 : ℚ := if bInit then 1 else fudge * dt
  s.foldlM (fun xf sh =>
    let s1 := sh.shell
    let xf := if bInit then Function.update xf s1 vzero else xf
    let ptr : ℤ → Vec3 := if bInit then xf else v
    match sh.nnucl with
    | 1 =>
        .ok (Function.update xf s1 (xf s1 + dt_1 • ptr sh.nucl1))
    | 2 =>
        let m1 := mass sh.nucl1
        let m2 := mass sh.nucl2
        let tm := dt_1 / (m1 + m2)
        .ok (Function.update xf s1 (xf s1 + tm • (m1 • ptr sh.nucl1 + m2 • ptr sh.nucl2)))
    | 3 =>
        let m1 := mass sh.nucl1
        let m2 := mass sh.nucl2
        let m3 := mass sh.nucl3
        let tm := dt_1 / (m1 + m2 + m3)
        .ok (Function.update xf s1
          (xf s1 + tm • (m1 • ptr sh.nucl1 + m2 • ptr sh.nucl2 + m3 • ptr sh.nucl3)))
    | _ => .error "Shell has wrong number of nuclei") x

/-- The predicted position array at one index, with the input position as the
fallback on the (fatal) error path; used to state concrete facts about
`predict_shells` without destructuring `Except`. -/
def predict_shells_at (x v : ℤ → Vec3) (dt : ℚ) (s : List Shell) (mass : ℤ → ℚ)
    (bInit : Bool) (i : ℤ) : Vec3 :=
  match predict_shells x v dt s mass bInit with
  | .ok xf => xf i
  | .error _ => x i

/-! ## `make_local_shells` (lines 586-648), single-node path, and the
write-through aliasing of the global table -/

/-- The fields of `gmx_shellfc_t` relevant to the global/local shell tables:
`nshell_gl`/`shell_gl` (the global table, lines 539-540) and `nshell`
(the local count). In single-node runs `make_local_shells` copies the global
table pointer into the local one (lines 601-604), so the local records ARE
the global records. -/
structure ShellFc where
  nshell_gl : ℕ
  shell_gl : List Shell
  nshell : ℕ
deriving DecidableEq

/-- `make_local_shells` on a single node (lines 599-605): "we need all shells,
just copy the pointer": `shfc->nshell = shfc->nshell_gl; shfc->shell =
shfc->shell_gl`. The pointer aliasing is modelled by letting every subsequent
write to the local table land in `shell_gl` (see
`single_node_relax_update`). -/
def make_local_shells_single (shfc : ShellFc) : ShellFc :=
  { shfc with nshell := shfc.nshell_gl }

/-- One steepest-descent update of a relaxation iteration in single-node
execution: `relax_shell_flexcon` calls `shell_pos_sd(pos[Min], pos[Try],
force[Min], nshell, shell, count)` (line 1531) where `shell = shfc->shell`
aliases `shfc->shell_gl` (lines 601-604), so the writes of `shell_pos_sd` to
`s[i].step`, `s[i].xold`, `s[i].fold` (lines 720, 743-757, 766-767) mutate
the global shell records; the write-through is modelled by storing the
updated records back into `shell_gl`. -/
def single_node_relax_update (shfc : ShellFc) (xcur xnew f : ℤ → Vec3)
    (count : ℕ) : ShellFc × (ℤ → Vec3) :=
  let l := make_local_shells_single shfc
  let r := shell_pos_sd xcur xnew f count l.shell_gl
  ({ l with shell_gl := r.1 }, r.2)

/-- The topology content of a shell record: every field of `t_shell` except
the solver-state fields `step`, `xold`, `fold`. -/
def shell_topology (sh : Shell) : ℤ × ℕ × ℤ × ℤ × ℤ × ℚ × ℚ × ℚ × ℚ × ℚ :=
  (sh.shell, sh.nnucl, sh.nucl1, sh.nucl2, sh.nucl3, sh.k, sh.k_1,
   sh.k11, sh.k22, sh.k33)

/-! ## `apply_drude_hardwall` (lines 967-1293), correction of one bond -/

/-- Result of the hard-wall treatment of one shell (Drude) / heavy-atom bond:
the locally corrected positions (`xa`/`xb` after lines 1218-1223), the
positions actually stored back into `state->x` (lines 1237-1238), the stored
velocities (lines 1256-1257), and whether the bond was corrected at all. -/
structure HwOut where
  xa_corr : Vec3
  xb_corr : Vec3
  x_ia : Vec3
  x_ib : Vec3
  v_ia : Vec3
  v_ib : Vec3
  corrected : Bool
deriving DecidableEq

/-- The body of `apply_drude_hardwall` for one bonded shell/heavy-atom pair
(lines 1061-1285), with no periodic image (so `pbc_dx` is the plain
difference) and the libm square root passed in as `sqrtFn`. `ia` is the heavy
atom (mass `ma`, position `xa`, velocity `va`), `ib` the Drude. `kbt` stands
for `BOLTZ * ir->drude->drude_t` (line 1004) and `delta_t` for
`ir->delta_t`, so `max_t = 2*delta_t` (line 1005). If the squared distance
exceeds `rwall^2` the correction applies; a distance beyond `2*rwall` is a
fatal error (lines 1115-1120). Note the stored positions: the source copies
`xa` into BOTH `state->x[ia]` and `state->x[ib]` (lines 1237-1238). -/
def apply_drude_hardwall_bond (sqrtFn : ℚ → ℚ) (delta_t kbt rwall ma mb : ℚ)
    (xa xb va vb : Vec3) : Except String HwOut :=
  let max_t := 2 * delta_t
  let rwall2 := rwall * rwall
  let vecab0 := xb - xa
  let rab2 := norm2 vecab0
  if rab2 > rwall2 then
    let rab := sqrtFn rab2
    if rab > 2 * rwall then
      .error "Drude atom is too far from its heavy atom. Cannot apply hardwall."
    else
      let vecab := (1 / rab) • vecab0
      let mtot := ma + mb
      let dprod_vr1 := iprod va vecab
      let dprod_vr2 := iprod vb vecab
      let vbcom := (ma * dprod_vr1 + mb * dprod_vr2) / mtot
      let dpr1 := dprod_vr1 - vbcom
      let dpr2 := dprod_vr2 - vbcom
      let dr := rab - rwall
      let dt : ℚ :=
        if dpr1 = dpr2 then max_t
        else
          let dtRaw := dr / |dpr1 - dpr2|
          if dtRaw > max_t then max_t else dtRaw
      let vbond := sqrtFn (kbt / mb)
      let tmp1 := (-1 : ℚ) * dpr1 * vbond * mb / (|dpr1| * mtot)
      let tmp2 := (-1 : ℚ) * dpr2 * vbond * ma / (|dpr2| * mtot)
      let dr_a := dr * mb / mtot + dt * tmp1
      let dr_b := (-1 : ℚ) * dr * ma / mtot + dt * tmp2
      let xa2 := xa + dr_a • vecab
      let xb2 := xb + dr_b • vecab
      let t1 := tmp1 + vbcom
      let t2 := tmp2 + vbcom
      let va2 := va + t1 • vecab
      let vb2 := vb + t2 • vecab
      .ok { xa_corr := xa2, xb_corr := xb2,
            x_ia := xa2, x_ib := xa2,
            v_ia := va2, v_ib := vb2, corrected := true }
  else
    .ok { xa_corr := xa, xb_corr := xb, x_ia := xa, x_ib := xb,
          v_ia := va, v_ib := vb, corrected := false }

/-- Extract the `HwOut` of a hard-wall correction, with an explicit fallback
for the fatal path. -/
def hwOutOr (e : Except String HwOut) (d : HwOut) : HwOut :=
  match e with
  | .ok o => o
  | .error _ => d

/-- Square-root oracle for the concrete hard-wall example: both arguments the
example feeds to libm `sqrt` are perfect squares of rationals. -/
def hwSqrtFn : ℚ → ℚ := fun q => if q = 9/4 then 3/2 else if q = 1 then 1 else 0

/-- Concrete hard-wall correction: heavy atom of mass 1 at the origin moving
with velocity (2,0,0), Drude of mass 1 at (3/2,0,0) at rest, wall distance
`rwall = 1` (so the bond length 3/2 exceeds the wall but not twice the wall),
`delta_t = 1`, `kbt = 1`. -/
def hwExample : Except String HwOut :=
  apply_drude_hardwall_bond hwSqrtFn 1 1 1 1 1 ⟨0,0,0⟩ ⟨3/2,0,0⟩ ⟨2,0,0⟩ ⟨0,0,0⟩

/-- The output record of `hwExample` (its fatal fallback is never taken). -/
def hwExampleOut : HwOut :=
  hwOutOr hwExample
    { xa_corr := vzero, xb_corr := vzero, x_ia := vzero, x_ib := vzero,
      v_ia := vzero, v_ib := vzero, corrected := false }

/-! ## Topology Builder: the bonded-interaction scan of `init_shell_flexcon`
(lines 313-532) -/

/-- The particle types distinguished by the scan (`eptAtom`, `eptVSite`,
`eptShell`). -/
inductive PType
  | atom
  | vsite
  | shell
deriving DecidableEq

/-- The bonded-interaction types scanned for shells (`bondtypes[]`,
line 283). -/
inductive BondKind
  | bonds
  | harmonic
  | cubicbonds
  | polarization
  | hyperPol
  | anharmPol
  | anisoPol
  | waterPol
deriving DecidableEq

/-- The union of the `iparams` fields read by the scan for one interaction
type entry (`harmonic.krA`, `cubic.kb`, `hyperpol.k`, `polarize.alpha`,
`daniso.a11/a22/a33`, `wpol.al_x/al_y/al_z`). -/
structure IParams where
  krA : ℚ
  kb : ℚ
  khyp : ℚ
  alpha : ℚ
  a11 : ℚ
  a22 : ℚ
  a33 : ℚ
  al_x : ℚ
  al_y : ℚ
  al_z : ℚ
deriving DecidableEq

/-- One bonded interaction of a scanned type, with global atom indices:
`a1`/`a2` are `ia[1]`/`ia[2]`; `a4`/`a5` are `ia[4]`/`ia[5]` (only read for
`F_WATER_POL`, lines 402-405); `ip` are the force-field parameters of its
type entry. -/
structure BondEntry where
  btype : BondKind
  a1 : ℕ
  a2 : ℕ
  a4 : ℕ
  a5 : ℕ
  ip : IParams
deriving DecidableEq

/-- The per-atom system tables consulted by the scan: particle type, the two
alchemical end-state charges `q`/`qB`, the dense shell index array
(`shell_index`, lines 316-326), and the atom-to-charge-group map `at2cg`
(lines 359-366). -/
structure SysParams where
  ptype : ℕ → PType
  qA : ℕ → ℚ
  qB : ℕ → ℚ
  shell_index : ℕ → ℤ
  at2cg : ℕ → ℤ

/-- `GMX_REAL_EPS` (single-precision machine epsilon, external header
`gromacs/utility/real.h`). -/
def gmxRealEps : ℚ := 1 / 2 ^ 23

/-- `ONE_4PI_EPS0` (external header `gromacs/math/units.h`). -/
def one4PiEps0 : ℚ := 138935458 / 1000000

/-- Modelled from the spec: `gmx_within_tol` lives in
`gromacs/math/functions.h`, outside the provided sources; the spec describes
the charge check as "numerically equal within tolerance". -/
def gmx_within_tol (f1 f2 tol : ℚ) : Bool := |f1 - f2| ≤ tol

/-- The shell-detection switch of the scan (lines 380-412): for the simple
bond and polarization types the endpoint typed as a shell (if any) is the
shell `aS` and the other endpoint the nucleus `aN`; `F_WATER_POL` uses the
fixed atom-role slots `ia[5]` (shell) and `ia[4]` (dummy nucleus);
`F_ANISO_POL` makes no assignment. Returns `some (aS, aN)` when a shell was
found. -/
def detect_shell_bond (P : SysParams) (b : BondEntry) : Option (ℕ × ℕ) :=
  match b.btype with
  | .waterPol => some (b.a5, b.a4)
  | .anisoPol => none
  | _ =>
      if P.ptype b.a1 = PType.shell then some (b.a1, b.a2)
      else if P.ptype b.a2 = PType.shell then some (b.a2, b.a1)
      else none

/-- Attachment of the nucleus to the first unused slot (lines 435-454);
a fourth attachment is the fatal error "Can not handle more than three bonds
per shell". -/
def attach_nucleus (aN : ℕ) (sh : Shell) : Except String Shell :=
  if sh.nucl1 = -1 then .ok { sh with nucl1 := (aN : ℤ) }
  else if sh.nucl2 = -1 then .ok { sh with nucl2 := (aN : ℤ) }
  else if sh.nucl3 = -1 then .ok { sh with nucl3 := (aN : ℤ) }
  else .error "Can not handle more than three bonds per shell"

/-- The force-constant accumulation switch (lines 461-510), including the
fatal alchemical-charge checks for the charge-dependent restraint types. -/
def accumulate_k (b : BondEntry) (qS qB : ℚ) (sh : Shell) : Except String Shell :=
  match b.btype with
  | .bonds => .ok { sh with k := sh.k + b.ip.krA }
  | .harmonic => .ok { sh with k := sh.k + b.ip.krA }
  | .cubicbonds => .ok { sh with k := sh.k + b.ip.kb }
  | .polarization => .ok { sh with k := sh.k + b.ip.khyp }
  | .hyperPol => .ok { sh with k := sh.k + b.ip.khyp }
  | .anharmPol =>
      if gmx_within_tol qS qB (gmxRealEps * 10) then
        .ok { sh with k := sh.k + qS * qS * one4PiEps0 / b.ip.alpha }
      else .error "polarize can not be used with qA different from qB"
  | .anisoPol =>
      if gmx_within_tol qS qB (gmxRealEps * 10) then
        let k2 := sh.k + b.ip.krA
        .ok { sh with
              k := k2
              k11 := sh.k11 + k2 / b.ip.a11
              k22 := sh.k22 + k2 / b.ip.a22
              k33 := sh.k33 + k2 / b.ip.a33 }
      else .error "polarize can not be used with qA different from qB"
  | .waterPol =>
      if gmx_within_tol qS qB (gmxRealEps * 10) then
        let alpha := (b.ip.al_x + b.ip.al_y + b.ip.al_z) / 3
        .ok { sh with k := sh.k + qS * qS * one4PiEps0 / alpha }
      else .error "water_pol can not be used with qA different from qB"

/-- Processing of one scanned interaction (lines 414-512). The state is the
shell table under construction, the count `ns` of discovered shells, and the
`bInterCG` flag. If no endpoint is a shell, the interaction is skipped.
Otherwise: the dense index `nsi = shell_index[aS]` is bounds-checked
(lines 420-424); the record's `shell` field is claimed on first discovery
(`ns++`, lines 425-433); the nucleus is attached to the first unused slot
(lines 435-454); the inter-charge-group flag is updated (lines 455-459); the
force constant is accumulated (lines 461-510); and `nnucl` is incremented
(line 511). The table length equals `nshell` throughout (the table is
allocated with `snew(shell, nshell)`). -/
def process_shell_bond (P : SysParams) (st : List Shell × ℕ × Bool)
    (b : BondEntry) : Except String (List Shell × ℕ × Bool) :=
  match detect_shell_bond P b with
  | none => .ok st
  | some (aS, aN) =>
      let tbl := st.1
      let ns := st.2.1
      let bInterCG := st.2.2
      let qS := P.qA aS
      let nsi := P.shell_index aS
      if hlt : 0 ≤ nsi ∧ nsi.toNat < tbl.length then
        let sh := tbl.get ⟨nsi.toNat, hlt.2⟩
        match (if sh.shell = -1 then .ok ({ sh with shell := (aS : ℤ) }, ns + 1)
               else if sh.shell ≠ (aS : ℤ) then .error "Weird stuff"
               else .ok (sh, ns) : Except String (Shell × ℕ)) with
        | .error e => .error e
        | .ok s1 =>
            match attach_nucleus aN s1.1 with
            | .error e => .error e
            | .ok s2 =>
                let bInterCG2 := bInterCG || decide (P.at2cg aS ≠ P.at2cg aN)
                match accumulate_k b qS (P.qB aS) s2 with
                | .error e => .error e
                | .ok s3 =>
                    .ok (tbl.set nsi.toNat { s3 with nnucl := s3.nnucl + 1 },
                         s1.2, bInterCG2)
      else .error "nsi out of range"

/-- The table-building part of `init_shell_flexcon` (lines 313-541): scan all
interactions of the relevant types over a zero-initialised table of `nshell`
records, verify that the number of shells that received a bond equals
`nshell` (lines 523-527, fatal otherwise), and finally store `k_1 = 1/k`
(lines 529-532). Returns the finished global table and the `bInterCG`
flag. -/
def init_shell_flexcon_build (P : SysParams) (nshell : ℕ)
    (entries : List BondEntry) : Except String (List Shell × Bool) :=
  match entries.foldlM (process_shell_bond P) (List.replicate nshell initShell, 0, false) with
  | .error e => .error e
  | .ok st =>
      if st.2.1 ≠ nshell then
        .error "Something weird with shells. They may not be bonded to something"
      else
        .ok (st.1.map (fun sh => { sh with k_1 := 1 / sh.k }), st.2.2)

/-! ## Invariant vocabulary and concrete instances used by the theorems -/

/-- Number of filled nucleus slots of a shell record. -/
def slot_count (sh : Shell) : ℕ :=
  (if sh.nucl1 ≠ -1 then 1 else 0) + (if sh.nucl2 ≠ -1 then 1 else 0) +
    (if sh.nucl3 ≠ -1 then 1 else 0)

/-- The scan invariant of one shell record: `nnucl` counts the filled slots,
an unclaimed record (`shell = -1`) has no attachments, and a claimed record
has at least one. -/
def shell_inv (sh : Shell) : Prop :=
  sh.nnucl = slot_count sh ∧ (sh.shell = -1 → sh.nnucl = 0) ∧
    (sh.shell ≠ -1 → 1 ≤ sh.nnucl)

/-- Whether a record's `shell` field has been claimed by the scan. -/
def shell_assigned (sh : Shell) : Bool := decide (sh.shell ≠ -1)

/-- Number of records of the table whose `shell` field has been claimed;
the scan's `ns` counter tracks exactly this quantity. -/
def count_assigned (tbl : List Shell) : ℕ :=
  tbl.countP shell_assigned

/-- Concrete system tables for a minimal topology: atom 0 is a shell, all
other atoms are ordinary; all charges zero; the dense shell index of atom 0
is 0; everything in one charge group. -/
def sysPW : SysParams :=
  { ptype := fun n => if n = 0 then .shell else .atom
    qA := fun _ => 0
    qB := fun _ => 0
    shell_index := fun _ => 0
    at2cg := fun _ => 0 }

/-- A single harmonic bond (type `F_BONDS`, `krA = 2`) between shell 0 and
heavy atom 1. -/
def entryW : BondEntry :=
  { btype := .bonds, a1 := 0, a2 := 1, a4 := 0, a5 := 0
    ip := { krA := 2, kb := 0, khyp := 0, alpha := 0, a11 := 0, a22 := 0,
            a33 := 0, al_x := 0, al_y := 0, al_z := 0 } }

/-- The shell record the builder produces for `sysPW` and `entryW`. -/
def shellW : Shell :=
  { shell := 0, nnucl := 1, nucl1 := 1, nucl2 := -1, nucl3 := -1,
    k := 2, k_1 := 1/2, k11 := 0, k22 := 0, k33 := 0,
    step := vzero, xold := vzero, fold := vzero }

/-- A shell attached to two heavy atoms (1 and 2), used for the predictor
scenarios. -/
def shPredict2 : Shell :=
  { initShell with shell := 0, nnucl := 2, nucl1 := 1, nucl2 := 2 }

/-- All-zero position array. -/
def xw0 : ℤ → Vec3 := fun _ => vzero

/-- Velocity array with every particle moving at (1,0,0). -/
def vw1 : ℤ → Vec3 := fun _ => ⟨1, 0, 0⟩

/-- Unit masses. -/
def mw1 : ℤ → ℚ := fun _ => 1

/-- A global shell record with `k = 2` (so `k_1 = 1/2`) and zeroed
solver-state fields, as left by `init_shell_flexcon`. -/
def shC8ex : Shell :=
  { initShell with shell := 0, nnucl := 1, nucl1 := 1, k := 2, k_1 := 1/2 }

/-- A `gmx_shellfc_t` whose global table holds the single record `shC8ex`,
before any relaxation step has run. -/
def shfcC8 : ShellFc := { nshell_gl := 1, shell_gl := [shC8ex], nshell := 0 }

/-! ## Component lemmas for the vector operations -/

@[simp] theorem vec3_add_x (a b : Vec3) : (a + b).x = a.x + b.x := rfl

@[simp] theorem vec3_add_y (a b : Vec3) : (a + b).y = a.y + b.y := rfl

@[simp] theorem vec3_add_z (a b : Vec3) : (a + b).z = a.z + b.z := rfl

@[simp] theorem vec3_sub_x (a b : Vec3) : (a - b).x = a.x - b.x := rfl

@[simp] theorem vec3_sub_y (a b : Vec3) : (a - b).y = a.y - b.y := rfl

@[simp] theorem vec3_sub_z (a b : Vec3) : (a - b).z = a.z - b.z := rfl

@[simp] theorem vec3_smul_x (c : ℚ) (a : Vec3) : (c • a).x = c * a.x := rfl

@[simp] theorem vec3_smul_y (c : ℚ) (a : Vec3) : (c • a).y = c * a.y := rfl

@[simp] theorem vec3_smul_z (c : ℚ) (a : Vec3) : (c • a).z = c * a.z := rfl

/-! ## Theorems -/

/-- Helper: once `bConverged` holds, the minimization loop body never runs. -/
theorem relaxGo_of_converged (ftol : ℚ) (ns : ℕ) (e : ℕ → ℚ) (fuel count iters : ℕ)
    (dfMin : ℚ) :
    relaxGo ftol ns e fuel count dfMin true iters =
      ⟨count, true, dfMin, iters⟩ := by
  cases fuel <;> simp [relaxGo]

/-- C10: the fatal `nstcalcenergy != 1` check of `init_shell_flexcon` fires
exactly when the system has at least one shell or at least one flexible
constraint and `nstcalcenergy` differs from 1, and the function returns
silently before the check exactly when there are neither shells nor flexible
constraints. -/
theorem c10_nstcalcenergy_check (nshell nflexcon : ℕ) (nst : ℤ) :
    (init_shell_flexcon_setup_check nshell nflexcon nst = SetupOutcome.fatalNstcalcenergy
      ↔ ((0 < nshell ∨ 0 < nflexcon) ∧ nst ≠ 1)) ∧
    (init_shell_flexcon_setup_check nshell nflexcon nst = SetupOutcome.returnSilently
      ↔ (nshell = 0 ∧ nflexcon = 0)) := by
  unfold init_shell_flexcon_setup_check
  split_ifs with h1 h2 h3 <;> simp_all <;> omega

/-- C5 counterexample: for a component with force delta exactly zero
(`f = fold = 5`) whose position did change (`xcur - xold = 1`), the code
multiplies the step by `step_scale_max` (yielding 6/5 from step 1) instead of
leaving it unscaled as the claim states. -/
theorem c5_counterexample :
    shell_step_component 1 1 0 5 5 = 6/5 ∧ (6/5 : ℚ) ≠ 1 := by
  constructor
  · norm_num [shell_step_component, gmx_numzero, gmx_numzero_tol, step_scale_max]
  · norm_num

/-- C5 (amended): when the force delta is exactly zero, the step is left
unscaled if the position component also failed to change, and otherwise is
increased by the fixed multiplier `step_scale_max`. -/
theorem c5_amended_zero_df (stp xcurd xoldd fd foldd : ℚ) (h : fd - foldd = 0) :
    shell_step_component stp xcurd xoldd fd foldd =
      if gmx_numzero (xcurd - xoldd) then stp else stp * step_scale_max := by
  simp [shell_step_component, h]

/-- Witness for `c5_amended_zero_df` at `stp = 3`, `xcur = 1`, `xold = 0`,
`f = fold = 2`. -/
theorem c5_amended_zero_df_witness :
    (2 - 2 : ℚ) = 0 ∧
    shell_step_component 3 1 0 2 2 =
      if gmx_numzero ((1 : ℚ) - 0) then 3 else 3 * step_scale_max :=
  ⟨by norm_num, c5_amended_zero_df 3 1 0 2 2 (by norm_num)⟩

/-- C3: at the concrete hard-wall correction `hwExample` (isolated pair, both
particles free, masses `ma = mb = 1`, bond direction (1,0,0), heavy-atom
velocity (2,0,0), Drude at rest), the bond-aligned momentum change
`m_a*dv_a + m_b*dv_b` (x-components, the bond direction) equals
`(m_a+m_b)*v_com = 2`, not 0: the code adds the reflected bond-aligned
velocity on top of the old one instead of replacing it (the perpendicular
components `vp1`/`vp2` computed at lines 1147/1158 are never used), so
momentum along the bond is not conserved. -/
theorem c3_hardwall_momentum_not_conserved :
    hwExampleOut.corrected = true ∧
    1 * (hwExampleOut.v_ia.x - 2) + 1 * (hwExampleOut.v_ib.x - 0) = 2 ∧
    (2 : ℚ) ≠ 0 := by
  refine ⟨?_, ?_, by norm_num⟩ <;>
    norm_num [hwExampleOut, hwExample, hwOutOr, apply_drude_hardwall_bond, hwSqrtFn,
      norm2, iprod]

/-- C4: at the concrete hard-wall correction `hwExample` (bond length 3/2,
ceiling `rwall = 1`), the stored positions of the two particles coincide
(`state->x[ib]` receives `xa`, lines 1237-1238), so the stored separation is
0, not the ceiling; moreover even the locally corrected positions `xa`/`xb`
are 5/4 apart (squared distance 25/16), not `rwall = 1` apart, because the
repositioning also carries the `dt*reflected-velocity` terms of lines
1214-1215. -/
theorem c4_hardwall_separation_not_ceiling :
    hwExampleOut.corrected = true ∧
    hwExampleOut.x_ib = hwExampleOut.x_ia ∧
    norm2 (hwExampleOut.x_ib - hwExampleOut.x_ia) = 0 ∧
    norm2 (hwExampleOut.xb_corr - hwExampleOut.xa_corr) = 25/16 ∧
    (0 : ℚ) ≠ 1 * 1 ∧ (25/16 : ℚ) ≠ 1 * 1 := by
  refine ⟨?_, ?_, ?_, ?_, by norm_num, by norm_num⟩ <;>
    norm_num [hwExampleOut, hwExample, hwOutOr, apply_drude_hardwall_bond, hwSqrtFn,
      norm2, iprod]

/-- Two 3-vectors are equal iff their components are. -/
@[simp] theorem vec3_eq_iff (a b : Vec3) :
    a = b ↔ a.x = b.x ∧ a.y = b.y ∧ a.z = b.z := by
  constructor
  · intro h; subst h; exact ⟨rfl, rfl, rfl⟩
  · intro h; cases a; cases b; simp_all

/-- C8 counterexample: in single-node execution the local table aliases the
global one (`shfc->shell = shfc->shell_gl`, line 603), so the very first
steepest-descent update (`count = 1`) writes `step = (1/k, 1/k, 1/k)` into
the global shell record: the global table after the per-step update differs
from the freshly built one. -/
theorem c8_counterexample_global_mutated :
    ((single_node_relax_update shfcC8 xw0 xw0 xw0 1).1.shell_gl)
      ≠ shfcC8.shell_gl := by
  norm_num [single_node_relax_update, make_local_shells_single, shell_pos_sd,
    shell_new_step, shfcC8, shC8ex, initShell, do_1pos3, xw0, vzero,
    Shell.mk.injEq]

/-- Helper: `shell_pos_sd` only writes the solver-state fields; the topology
content of every record is unchanged. -/
theorem shell_pos_sd_topology (xcur f : ℤ → Vec3) (count : ℕ) :
    ∀ (s : List Shell) (xn : ℤ → Vec3),
      ((shell_pos_sd xcur xn f count s).1).map shell_topology =
        s.map shell_topology := by
  intro s
  induction s with
  | nil => intro xn; simp [shell_pos_sd]
  | cons sh rest ih =>
      intro xn
      simp only [shell_pos_sd, List.map_cons, ih]
      rfl

/-- C8 (amended): the topology fields of the global shell records (shell
index, attachment count and indices, force constants) are never changed by
the per-step steepest-descent update, but in single-partition execution the
solver-state fields (`step`, `xold`, `fold`) of the global records are
written through the aliased local table. -/
theorem c8_amended_topology_immutable (shfc : ShellFc) (xcur xnew f : ℤ → Vec3)
    (count : ℕ) :
    ((single_node_relax_update shfc xcur xnew f count).1.shell_gl).map shell_topology
      = shfc.shell_gl.map shell_topology := by
  simp [single_node_relax_update, make_local_shells_single, shell_pos_sd_topology]

/-- C6 counterexample: `dt = 1`, one shell bonded to two nuclei of mass 1
each, both moving with velocity (1,0,0): the mass-weighted average velocity
is (1,0,0), so a prediction from a fraction of the time step scaled down
below one full step would displace the shell by strictly less than
`1 * dt = 1`; the code (with `fudge = 1.0`, line 126) displaces it by exactly
1. -/
theorem c6_counterexample_full_step :
    predict_shells_at xw0 vw1 1 [shPredict2] mw1 false 0 = ⟨1, 0, 0⟩ ∧
    ¬ ((predict_shells_at xw0 vw1 1 [shPredict2] mw1 false 0).x < 1 * 1) := by
  constructor <;>
    norm_num [predict_shells_at, predict_shells, shPredict2, initShell, xw0, vw1, mw1,
      vzero, Function.update]

/-- C6 (amended): on ordinary (non-initialization) steps with prediction
enabled, a shell with two attached heavy particles is displaced by the
mass-weighted average of their velocities multiplied by the FULL time step
(`fudge * dt` with `fudge = 1.0`), not by a fraction strictly below one full
time step. -/
theorem c6_amended_mass_weighted_full_step (x v : ℤ → Vec3) (dt : ℚ) (sh : Shell)
    (mass : ℤ → ℚ) (h2 : sh.nnucl = 2) :
    predict_shells x v dt [sh] mass false =
      .ok (Function.update x sh.shell
        (x sh.shell + (dt / (mass sh.nucl1 + mass sh.nucl2)) •
          (mass sh.nucl1 • v sh.nucl1 + mass sh.nucl2 • v sh.nucl2))) := by
  simp [predict_shells, h2]

/-- Witness for `c6_amended_mass_weighted_full_step` at the concrete
two-nucleus shell `shPredict2` with unit masses and velocities (1,0,0). -/
theorem c6_amended_mass_weighted_full_step_witness :
    shPredict2.nnucl = 2 ∧
    predict_shells xw0 vw1 1 [shPredict2] mw1 false =
      .ok (Function.update xw0 shPredict2.shell
        (xw0 shPredict2.shell + ((1 : ℚ) / (mw1 shPredict2.nucl1 + mw1 shPredict2.nucl2)) •
          (mw1 shPredict2.nucl1 • vw1 shPredict2.nucl1 +
            mw1 shPredict2.nucl2 • vw1 shPredict2.nucl2))) :=
  ⟨rfl, c6_amended_mass_weighted_full_step xw0 vw1 1 shPredict2 mw1 rfl⟩

/-- C2: if the RMS force from the first force evaluation of the step is
already strictly below the tolerance, `relax_shell_flexcon` performs exactly
one force evaluation, never enters the minimization loop, reports convergence
(with the pre-loop report carrying count 0), and the run-wide
`numForceEvaluations` counter is incremented by exactly the number of force
evaluations performed (namely 1). -/
theorem c2_zero_iteration_convergence (ftol : ℚ) (numberSteps : ℕ)
    (evalRms : ℕ → ℚ) (h : evalRms 0 < ftol) :
    (relax_shell_flexcon ftol numberSteps evalRms).forceEvaluations = 1 ∧
    (relax_shell_flexcon ftol numberSteps evalRms).loopIters = 0 ∧
    (relax_shell_flexcon ftol numberSteps evalRms).converged = true ∧
    (relax_shell_flexcon ftol numberSteps evalRms).initialReportCount = 0 ∧
    (relax_shell_flexcon ftol numberSteps evalRms).counterIncrement =
      (relax_shell_flexcon ftol numberSteps evalRms).forceEvaluations := by
  have hc : decide (evalRms 0 < ftol) = true := decide_eq_true h
  simp [relax_shell_flexcon, hc, relaxGo_of_converged]

/-- Witness for `c2_zero_iteration_convergence`: tolerance 1, evaluator
returning RMS force 0. -/
theorem c2_zero_iteration_convergence_witness :
    ((fun _ : ℕ => (0 : ℚ)) 0 < 1) ∧
    ((relax_shell_flexcon 1 5 (fun _ => 0)).forceEvaluations = 1 ∧
     (relax_shell_flexcon 1 5 (fun _ => 0)).loopIters = 0 ∧
     (relax_shell_flexcon 1 5 (fun _ => 0)).converged = true ∧
     (relax_shell_flexcon 1 5 (fun _ => 0)).initialReportCount = 0 ∧
     (relax_shell_flexcon 1 5 (fun _ => 0)).counterIncrement =
       (relax_shell_flexcon 1 5 (fun _ => 0)).forceEvaluations) :=
  ⟨by norm_num, c2_zero_iteration_convergence 1 5 (fun _ => 0) (by norm_num)⟩

/-- C7: with an iteration budget of 5 and a tolerance no evaluation ever
beats, the loop stops with `count = 5` after 5 force evaluations in total,
the converged flag is left false, and the non-convergence warning is emitted
(the function then returns normally and the simulation continues to the next
step). -/
theorem c7_budget_exhaustion (ftol : ℚ) (evalRms : ℕ → ℚ)
    (h : ∀ k, ¬ (evalRms k < ftol)) :
    (relax_shell_flexcon ftol 5 evalRms).count = 5 ∧
    (relax_shell_flexcon ftol 5 evalRms).forceEvaluations = 5 ∧
    (relax_shell_flexcon ftol 5 evalRms).converged = false ∧
    (relax_shell_flexcon ftol 5 evalRms).warned = true := by
  have hd : ∀ k, decide (evalRms k < ftol) = false := fun k => decide_eq_false (h k)
  simp [relax_shell_flexcon, relaxGo, hd]

/-- Witness for `c7_budget_exhaustion`: tolerance 1, evaluator returning RMS
force 1 forever. -/
theorem c7_budget_exhaustion_witness :
    (∀ k : ℕ, ¬ ((fun _ : ℕ => (1 : ℚ)) k < 1)) ∧
    ((relax_shell_flexcon 1 5 (fun _ => 1)).count = 5 ∧
     (relax_shell_flexcon 1 5 (fun _ => 1)).forceEvaluations = 5 ∧
     (relax_shell_flexcon 1 5 (fun _ => 1)).converged = false ∧
     (relax_shell_flexcon 1 5 (fun _ => 1)).warned = true) :=
  ⟨fun _ => by norm_num, c7_budget_exhaustion 1 (fun _ => 1) (fun _ => by norm_num)⟩

/-- C9: with zero local shells and zero flexible-constraint degrees of
freedom, `ntot = 0`, the division is guarded and `rms_force` returns 0 (for
any `sf_dir` input and any square-root oracle); consequently the relaxation
sees RMS force 0 and converges immediately (one force evaluation, zero loop
iterations) for any positive tolerance. -/
theorem c9_rms_force_total_empty (sqrtFn : ℚ → ℚ) (f : ℤ → Vec3)
    (sf_dir ftol : ℚ) (numberSteps : ℕ) (h : 0 < ftol) :
    rms_force sqrtFn f [] 0 sf_dir = 0 ∧
    (relax_shell_flexcon ftol numberSteps (fun _ => rms_force sqrtFn f [] 0 0)).converged
      = true ∧
    (relax_shell_flexcon ftol numberSteps (fun _ => rms_force sqrtFn f [] 0 0)).loopIters
      = 0 ∧
    (relax_shell_flexcon ftol numberSteps (fun _ => rms_force sqrtFn f [] 0 0)).forceEvaluations
      = 1 := by
  have h0 : ∀ sf : ℚ, rms_force sqrtFn f [] 0 sf = 0 := by
    intro sf; simp [rms_force]
  have hc : decide (rms_force sqrtFn f ([] : List Shell) 0 0 < ftol) = true :=
    decide_eq_true (by rw [h0]; exact h)
  exact ⟨h0 sf_dir, by simp [relax_shell_flexcon, hc, relaxGo_of_converged]⟩

/-- Witness for `c9_rms_force_total_empty`: identity square-root oracle, zero
forces, `sf_dir = 7`, tolerance 1. -/
theorem c9_rms_force_total_empty_witness :
    (0 : ℚ) < 1 ∧
    (rms_force id xw0 [] 0 7 = 0 ∧
     (relax_shell_flexcon 1 5 (fun _ => rms_force id xw0 [] 0 0)).converged = true ∧
     (relax_shell_flexcon 1 5 (fun _ => rms_force id xw0 [] 0 0)).loopIters = 0 ∧
     (relax_shell_flexcon 1 5 (fun _ => rms_force id xw0 [] 0 0)).forceEvaluations = 1) :=
  ⟨by norm_num,
    by
      have h := c9_rms_force_total_empty id xw0 7 1 5 (by norm_num)
      exact ⟨h.1, h.2.1, h.2.2.1, h.2.2.2⟩⟩

/-- Helper: a shell record has at most three nucleus slots. -/
theorem slot_count_le_three (sh : Shell) : slot_count sh ≤ 3 := by
  unfold slot_count; split_ifs <;> omega

/-- Helper: how `List.countP` changes under `List.set`. -/
theorem countP_set_add {α : Type} (p : α → Bool) (l : List α) (i : ℕ) (x : α)
    (h : i < l.length) :
    (l.set i x).countP p + (if p (l.get ⟨i, h⟩) then 1 else 0)
      = l.countP p + (if p x then 1 else 0) := by
  induction l generalizing i with
  | nil => simp at h
  | cons a t ih =>
      cases i with
      | zero =>
          simp only [List.set, List.countP_cons, List.get]
          split_ifs <;> omega
      | succ n =>
          have hn : n < t.length := by simpa using h
          have hg : (a :: t).get ⟨n + 1, h⟩ = t.get ⟨n, hn⟩ := rfl
          have ht := ih n hn
          simp only [List.set, List.countP_cons, hg]
          omega

/-- Helper: a successful attachment preserves the `shell` field and `nnucl`
and fills exactly one more nucleus slot (the stored index is a cast natural,
hence never the sentinel -1). -/
theorem attach_nucleus_ok (aN : ℕ) (sh sh2 : Shell)
    (h : attach_nucleus aN sh = .ok sh2) :
    sh2.shell = sh.shell ∧ sh2.nnucl = sh.nnucl ∧
      slot_count sh2 = slot_count sh + 1 := by
  have haN : ((aN : ℤ)) ≠ -1 := by omega
  unfold attach_nucleus at h
  split_ifs at h with h1 h2 h3 <;>
    simp only [Except.ok.injEq] at h <;>
    subst h <;>
    refine ⟨rfl, rfl, ?_⟩ <;>
    simp only [slot_count, h1, haN] <;>
    split_ifs <;> omega

/-- Helper: the force-constant accumulation switch only writes the
`k`/`k11`/`k22`/`k33` fields. -/
theorem accumulate_k_ok (b : BondEntry) (qS qB : ℚ) (sh sh2 : Shell)
    (h : accumulate_k b qS qB sh = .ok sh2) :
    sh2.shell = sh.shell ∧ sh2.nnucl = sh.nnucl ∧
      sh2.nucl1 = sh.nucl1 ∧ sh2.nucl2 = sh.nucl2 ∧ sh2.nucl3 = sh.nucl3 := by
  unfold accumulate_k at h
  cases hb : b.btype <;> rw [hb] at h <;>
    (try split_ifs at h) <;>
    simp only [Except.ok.injEq] at h <;>
    subst h <;>
    exact ⟨rfl, rfl, rfl, rfl, rfl⟩

/-- Helper: processing one interaction preserves the table length, the
per-record scan invariant, and the correspondence between the `ns` counter
and the number of claimed records. -/
theorem process_shell_bond_ok (P : SysParams) (st st2 : List Shell × ℕ × Bool) (b : BondEntry)
    (h : process_shell_bond P st b = .ok st2)
    (hinv : ∀ sh ∈ st.1, shell_inv sh)
    (hns : st.2.1 = count_assigned st.1) :
    st2.1.length = st.1.length ∧ (∀ sh ∈ st2.1, shell_inv sh) ∧
      st2.2.1 = count_assigned st2.1 := by
  unfold process_shell_bond at h
  split at h
  case h_1 =>
    simp only [Except.ok.injEq] at h
    subst h
    exact ⟨rfl, hinv, hns⟩
  case h_2 aS aN heq =>
    simp only [] at h
    split at h
    case isFalse => simp at h
    case isTrue hlt =>
      split at h
      next e heq1 => simp at h
      next s1 heq1 =>
        split at h
        next e hat => simp at h
        next s2 hat =>
          split at h
          next e hacc => simp at h
          next s3 hacc =>
            simp only [Except.ok.injEq] at h
            subst h
            have haS : ((aS : ℤ)) ≠ -1 := by omega
            have hmem0 : st.1.get ⟨(P.shell_index aS).toNat, hlt.2⟩ ∈ st.1 :=
              st.1.get_mem _ _
            have hinv0 := hinv _ hmem0
            obtain ⟨hk1, hk2, hk3, hk4, hk5⟩ :=
              accumulate_k_ok b (P.qA aS) (P.qB aS) s2 s3 hacc
            have hslot3 : slot_count s3 = slot_count s2 := by
              unfold slot_count; rw [hk3, hk4, hk5]
            obtain ⟨hat1, hat2, hat3⟩ := attach_nucleus_ok aN s1.1 s2 hat
            split_ifs at heq1 with hm1 hm2
            · -- first discovery of this shell: claim the record, ns + 1
              simp only [Except.ok.injEq] at heq1
              subst heq1
              have hsh3 : s3.shell = (aS : ℤ) := by rw [hk1, hat1]
              have hnn : s3.nnucl =
                  (st.1.get ⟨(P.shell_index aS).toNat, hlt.2⟩).nnucl := by
                rw [hk2, hat2]
              have hsl : slot_count s3 =
                  slot_count (st.1.get ⟨(P.shell_index aS).toNat, hlt.2⟩) + 1 := by
                rw [hslot3, hat3]
                try rfl
              refine ⟨by simp, ?_, ?_⟩
              · intro sh hsh
                rcases List.mem_or_eq_of_mem_set hsh with hmem | hrfl
                · exact hinv sh hmem
                · subst hrfl
                  refine ⟨?_, ?_, ?_⟩
                  · show s3.nnucl + 1 = _
                    have hs : slot_count { s3 with nnucl := s3.nnucl + 1 } = slot_count s3 := rfl
                    rw [hs, hsl, hnn, hinv0.1]
                  · intro hc
                    exact absurd (hsh3 ▸ hc) haS
                  · intro _
                    show 1 ≤ s3.nnucl + 1
                    omega
              · show st.2.1 + 1 = count_assigned
                    (st.1.set (P.shell_index aS).toNat { s3 with nnucl := s3.nnucl + 1 })
                have hcs := countP_set_add shell_assigned st.1
                  (P.shell_index aS).toNat
                  { s3 with nnucl := s3.nnucl + 1 } hlt.2
                have hps : shell_assigned (st.1.get ⟨(P.shell_index aS).toNat, hlt.2⟩)
                    = false := by simp only [shell_assigned, hm1]; rfl
                have hpn : shell_assigned ({ s3 with nnucl := s3.nnucl + 1 } : Shell)
                    = true := by
                  simp only [shell_assigned]
                  show decide (s3.shell ≠ -1) = true
                  rw [hsh3]
                  exact decide_eq_true haS
                rw [hps, hpn] at hcs
                simp at hcs
                unfold count_assigned at hns ⊢
                omega
            · -- record already claimed by this shell: ns unchanged
              have hm2 := not_ne_iff.mp hm2
              simp only [Except.ok.injEq] at heq1
              subst heq1
              have hsh3 : s3.shell = (aS : ℤ) := by rw [hk1, hat1, hm2]
              have hnn : s3.nnucl =
                  (st.1.get ⟨(P.shell_index aS).toNat, hlt.2⟩).nnucl := by
                rw [hk2, hat2]
              have hsl : slot_count s3 =
                  slot_count (st.1.get ⟨(P.shell_index aS).toNat, hlt.2⟩) + 1 := by
                rw [hslot3, hat3]
                try rfl
              refine ⟨by simp, ?_, ?_⟩
              · intro sh hsh
                rcases List.mem_or_eq_of_mem_set hsh with hmem | hrfl
                · exact hinv sh hmem
                · subst hrfl
                  refine ⟨?_, ?_, ?_⟩
                  · show s3.nnucl + 1 = _
                    have hs : slot_count { s3 with nnucl := s3.nnucl + 1 } = slot_count s3 := rfl
                    rw [hs, hsl, hnn, hinv0.1]
                  · intro hc
                    exact absurd (hsh3 ▸ hc) haS
                  · intro _
                    show 1 ≤ s3.nnucl + 1
                    omega
              · show st.2.1 = count_assigned
                    (st.1.set (P.shell_index aS).toNat { s3 with nnucl := s3.nnucl + 1 })
                have hcs := countP_set_add shell_assigned st.1
                  (P.shell_index aS).toNat
                  { s3 with nnucl := s3.nnucl + 1 } hlt.2
                have hps : shell_assigned (st.1.get ⟨(P.shell_index aS).toNat, hlt.2⟩)
                    = true := by
                  simp only [shell_assigned, hm2]
                  exact decide_eq_true haS
                have hpn : shell_assigned ({ s3 with nnucl := s3.nnucl + 1 } : Shell)
                    = true := by
                  simp only [shell_assigned]
                  show decide (s3.shell ≠ -1) = true
                  rw [hsh3]
                  exact decide_eq_true haS
                rw [hps, hpn] at hcs
                simp at hcs
                unfold count_assigned at hns ⊢
                omega

/-- Helper: the scan invariant is preserved across the whole interaction
scan. -/
theorem foldlM_process_shell_bond_inv (P : SysParams) :
    ∀ (entries : List BondEntry) (st st2 : List Shell × ℕ × Bool),
      entries.foldlM (process_shell_bond P) st = .ok st2 →
      (∀ sh ∈ st.1, shell_inv sh) → st.2.1 = count_assigned st.1 →
      (st2.1.length = st.1.length ∧ (∀ sh ∈ st2.1, shell_inv sh) ∧
        st2.2.1 = count_assigned st2.1) := by
  intro entries
  induction entries with
  | nil =>
      intro st st2 h hinv hns
      rw [List.foldlM_nil] at h
      cases h
      exact ⟨rfl, hinv, hns⟩
  | cons b rest ih =>
      intro st st2 h hinv hns
      rw [List.foldlM_cons] at h
      cases hp : process_shell_bond P st b with
      | error e =>
          rw [hp] at h
          exact Except.noConfusion h
      | ok st1 =>
          rw [hp] at h
          have h2 : rest.foldlM (process_shell_bond P) st1 = .ok st2 := h
          obtain ⟨hl, hi, hc⟩ := process_shell_bond_ok P st st1 b hp hinv hns
          obtain ⟨hl2, hi2, hc2⟩ := ih st1 st2 h2 hi hc
          exact ⟨hl2.trans hl, hi2, hc2⟩

/-- Helper: no record of the freshly allocated table is claimed. -/
theorem count_assigned_replicate_init (n : ℕ) :
    count_assigned (List.replicate n initShell) = 0 := by
  unfold count_assigned
  induction n with
  | zero => rfl
  | succ m ih =>
      rw [List.replicate_succ, List.countP_cons]
      have hz : shell_assigned initShell = false := rfl
      rw [hz]
      simpa using ih

/-- C1: every shell record of a successfully built global shell table has
between one and three attached heavy particles: a fourth attachment aborts
with a fatal error during the scan (lines 435-454), and a shell-typed
particle that received no attachment makes the final `ns != nshell` check
abort (lines 523-527), so on success `1 <= nnucl <= 3` for every record. -/
theorem c1_shell_nnucl_bounds (P : SysParams) (nshell : ℕ) (entries : List BondEntry)
    (tbl : List Shell) (flag : Bool) (sh : Shell)
    (hok : init_shell_flexcon_build P nshell entries = .ok (tbl, flag))
    (hmem : sh ∈ tbl) :
    1 ≤ sh.nnucl ∧ sh.nnucl ≤ 3 := by
  unfold init_shell_flexcon_build at hok
  cases hf : entries.foldlM (process_shell_bond P) (List.replicate nshell initShell, 0, false) with
  | error e => rw [hf] at hok; exact Except.noConfusion hok
  | ok st =>
      rw [hf] at hok
      split at hok
      case h_1 hcnt => exact Except.noConfusion hok
      case h_2 =>
        rename_i stb heqb
        injection heqb with heqb
        subst heqb
        split at hok
        case isTrue => exact Except.noConfusion hok
        case isFalse hcnt0 =>
        have hcnt : st.2.1 = nshell := not_ne_iff.mp hcnt0
        simp only [Except.ok.injEq, Prod.mk.injEq] at hok
        obtain ⟨htbl, hflag⟩ := hok
        have hinv0 : ∀ s ∈ (List.replicate nshell initShell), shell_inv s := by
          intro s hs
          rw [List.eq_of_mem_replicate hs]
          refine ⟨rfl, fun _ => rfl, fun hc => absurd rfl hc⟩
        have hns0 : (0 : ℕ) = count_assigned (List.replicate nshell initShell) :=
          (count_assigned_replicate_init nshell).symm
        obtain ⟨hl, hi, hc⟩ := foldlM_process_shell_bond_inv P entries _ st hf hinv0 hns0
        subst htbl
        obtain ⟨sh0, hmem0, hsh0⟩ := List.mem_map.mp hmem
        have hinvsh0 := hi sh0 hmem0
        have hlen : st.1.length = nshell := by simpa using hl
        have hall : ∀ s ∈ st.1, shell_assigned s = true := by
          refine List.countP_eq_length.mp ?_
          show st.1.countP shell_assigned = st.1.length
          unfold count_assigned at hc
          omega
        have hne : sh0.shell ≠ -1 := by
          have := hall sh0 hmem0
          simpa [shell_assigned] using this
        have hnn : sh.nnucl = sh0.nnucl := by rw [← hsh0]
        constructor
        · rw [hnn]; exact hinvsh0.2.2 hne
        · rw [hnn, hinvsh0.1]; exact slot_count_le_three sh0

/-- The builder output on the minimal concrete topology `sysPW`/`entryW`. -/
theorem c1_build_concrete :
    init_shell_flexcon_build sysPW 1 [entryW] = .ok ([shellW], false) := by
  norm_num [init_shell_flexcon_build, process_shell_bond, detect_shell_bond,
    attach_nucleus, accumulate_k, sysPW, entryW, shellW, initShell, List.foldlM,
    List.replicate, shell_assigned, count_assigned, Shell.mk.injEq]

/-- Witness for `c1_shell_nnucl_bounds` on the minimal concrete topology. -/
theorem c1_shell_nnucl_bounds_witness :
    init_shell_flexcon_build sysPW 1 [entryW] = .ok ([shellW], false) ∧
    shellW ∈ [shellW] ∧ (1 ≤ shellW.nnucl ∧ shellW.nnucl ≤ 3) :=
  ⟨c1_build_concrete, List.mem_singleton.mpr rfl,
    c1_shell_nnucl_bounds sysPW 1 [entryW] [shellW] false shellW c1_build_concrete
      (List.mem_singleton.mpr rfl)⟩
